import Mathlib

/-!
Verification of the relation-index core of `source/blender/blenkernel/intern/main.c`
and of the column lookup of
`source/blender/editors/space_spreadsheet/spreadsheet_data_source_geometry.cc`.

The embedding is shallow: the `Main` database, its `MainIDRelations` map and the
relation-building callback are translated to executable Lean functions over
explicit state.  The generic ID walker (`BKE_library_foreach_ID_link`) lives
outside the excerpt and is modelled from the spec, as noted on its definition.
Pointers become `Nat` identities, `BLI_ghash` becomes an association list keyed
by that identity, and the `BLI_mempool`-allocated linked lists of
`MainIDRelationsEntryItem` become Lean lists with push-front insertion (the C
code links each new item in front of the current head).
-/

set_option autoImplicit false

namespace BlenderMain

/-- Sentinel for an unset session UUID, `MAIN_ID_SESSION_UUID_UNSET` in `DNA_ID.h`. -/
def MAIN_ID_SESSION_UUID_UNSET : Nat := 0

/-- Flag bit `MAINIDRELATIONS_INCLUDE_UI` of `BKE_main.h`. -/
def MAINIDRELATIONS_INCLUDE_UI : Nat := 1

/-- An `ID` datablock as the relation code sees it: its memory identity (the
`ghash` hashes raw pointers) and its `session_uuid` field. -/
structure ID where
  ptr : Nat
  session_uuid : Nat
deriving DecidableEq, Repr

/-- One typed reference field of an ID, as reported to the relation callback by
the walker: the current value of the `ID *` field (`none` models NULL), the
`cb_flag` usage bitmask the walker passes for it, and whether the field is a
UI-only reference (visited only under `IDWALK_INCLUDE_UI`). -/
structure RefField where
  target : Option ID
  usage_flag : Nat
  ui_only : Bool
deriving DecidableEq, Repr

/-- An ID together with the reference fields its kind declares, i.e. one node of
the registry (`Main`) as enumerated by `FOREACH_MAIN_ID_BEGIN`. -/
structure IDNode where
  id : ID
  fields : List RefField
deriving DecidableEq, Repr

/-- An outgoing item (`MainIDRelationsEntryItem` reached through `to_ids`):
`id_pointer.to` is the address of the field, modelled as owner identity plus
field index; `session_uuid` is the stamp of the pointed-to ID at discovery time
(or the unset sentinel); `usage_flag` is the callback flag. -/
structure ToItem where
  owner_ptr : Nat
  field_index : Nat
  session_uuid : Nat
  usage_flag : Nat
deriving DecidableEq, Repr

/-- An incoming item (`MainIDRelationsEntryItem` reached through `from_ids`):
`id_pointer.from` is the referencing ID itself (its identity), with that ID's
`session_uuid` and the shared usage flag. -/
structure FromItem where
  from_ptr : Nat
  session_uuid : Nat
  usage_flag : Nat
deriving DecidableEq, Repr

/-- `MainIDRelationsEntry`: identity stamp, outgoing list, incoming list, tags. -/
structure MainIDRelationsEntry where
  session_uuid : Nat
  to_ids : List ToItem
  from_ids : List FromItem
  tags : Nat
deriving DecidableEq, Repr

/-- The `relations_from_pointers` ghash: an association list from ID identity
(pointer) to its relation entry.  Lookup and in-place update act on the first
occurrence of a key; the build only ever inserts a key once. -/
abbrev RelMap := List (Nat × MainIDRelationsEntry)

/-- `MainIDRelations`: the map plus the flags the build was performed with. -/
structure MainIDRelations where
  relations_from_pointers : RelMap
  flag : Nat
deriving DecidableEq, Repr

/-- The `Main` database restricted to what the relation code uses: the flattened
ID enumeration (in `FOREACH_MAIN_ID` order) and the optional relations index. -/
structure Main where
  ids : List IDNode
  relations : Option MainIDRelations
deriving DecidableEq, Repr

/-- `BLI_ghash_lookup` on the relations map. -/
def relmap_lookup : RelMap → Nat → Option MainIDRelationsEntry
  | [], _ => none
  | (k', e) :: rest, k => if k' = k then some e else relmap_lookup rest k

/-- In-place modification of the entry stored under a key (the C code mutates
`**entry_p` obtained from `BLI_ghash_ensure_p`); a missing key changes nothing. -/
def relmap_update : RelMap → Nat → (MainIDRelationsEntry → MainIDRelationsEntry) → RelMap
  | [], _, _ => []
  | (k', e) :: rest, k, f =>
    if k' = k then (k', f e) :: rest else (k', e) :: relmap_update rest k f

/-- A freshly `MEM_callocN`-ed entry with its stamp set: empty edge lists, zero
tags (`calloc` zeroes the struct, then `session_uuid` is assigned). -/
def freshEntry (uuid : Nat) : MainIDRelationsEntry :=
  { session_uuid := uuid, to_ids := [], from_ids := [], tags := 0 }

/-- `BLI_ghash_ensure_p` followed by the creation branch of the C code: if the
key is absent a fresh zeroed entry stamped with `uuid` is inserted; an existing
entry is returned untouched (the mismatch `BLI_assert` never writes to it). -/
def relmap_ensure (m : RelMap) (k uuid : Nat) : RelMap :=
  match relmap_lookup m k with
  | some _ => m
  | none => (k, freshEntry uuid) :: m

/-- First half of the non-null branch of `main_relations_create_idlink_cb`:
ensure `id_self` has an entry, then push a new outgoing item onto its `to_ids`.
The C expression for the item's stamp is
`(*id_pointer != NULL) ? (*id_pointer)->session_uuid : MAIN_ID_SESSION_UUID_UNSET`;
under the enclosing `if (*id_pointer)` guard the `UNSET` branch is unreachable,
so the stamp is always the target's `session_uuid` here. -/
def cb_add_to (m : RelMap) (id_self : ID) (field_index : Nat) (tgt : ID)
    (cb_flag : Nat) : RelMap :=
  let m := relmap_ensure m id_self.ptr id_self.session_uuid
  let to_id_entry : ToItem :=
    { owner_ptr := id_self.ptr, field_index := field_index,
      session_uuid := tgt.session_uuid, usage_flag := cb_flag }
  relmap_update m id_self.ptr (fun e => { e with to_ids := to_id_entry :: e.to_ids })

/-- Second half of the non-null branch (`Add id_self as parent of id_pointer`):
ensure the target has an entry, then push a new incoming item onto its
`from_ids`, pointing back at `id_self`.  The C re-checks `*id_pointer != NULL`
here, which is again always true under the outer guard. -/
def cb_add_from (m : RelMap) (id_self : ID) (tgt : ID) (cb_flag : Nat) : RelMap :=
  let m := relmap_ensure m tgt.ptr tgt.session_uuid
  let from_id_entry : FromItem :=
    { from_ptr := id_self.ptr, session_uuid := id_self.session_uuid,
      usage_flag := cb_flag }
  relmap_update m tgt.ptr (fun e => { e with from_ids := from_id_entry :: e.from_ids })

/-- `main_relations_create_idlink_cb`: the whole body sits inside
`if (*id_pointer) { ... }`, so a NULL field returns with the map untouched;
for a non-null target one outgoing and one incoming item are recorded. -/
def main_relations_create_idlink_cb (m : RelMap) (id_self : ID) (field_index : Nat)
    (field : RefField) : RelMap :=
  match field.target with
  | none => m
  | some tgt =>
    cb_add_from (cb_add_to m id_self field_index tgt field.usage_flag)
      id_self tgt field.usage_flag

/-- Modelled from the spec: `BKE_library_foreach_ID_link` (the Graph Walker) is
not part of the excerpt.  Per the spec it invokes the callback exactly once per
typed reference field occurrence of the object, in the fixed kind-defined field
order, including fields currently NULL, and includes UI-only fields exactly when
the `IDWALK_INCLUDE_UI` option is passed. -/
def walker_fields (node : IDNode) (include_ui : Bool) : List (Nat × RefField) :=
  node.fields.enum.filter (fun p => include_ui || !p.2.ui_only)

/-- The per-ID body of the build loop of `BKE_main_relations_create`: ensure the
ID has an entry even if unconnected, then walk its reference fields through
`main_relations_create_idlink_cb`. -/
def relations_build_id (include_ui : Bool) (m : RelMap) (node : IDNode) : RelMap :=
  let m := relmap_ensure m node.id.ptr node.id.session_uuid
  (walker_fields node include_ui).foldl
    (fun m p => main_relations_create_idlink_cb m node.id p.1 p.2) m

/-- The relations map built by `BKE_main_relations_create` over the full ID
enumeration, starting from the fresh empty ghash. -/
def relations_build_map (ids : List IDNode) (flag : Nat) : RelMap :=
  ids.foldl (relations_build_id ((flag &&& MAINIDRELATIONS_INCLUDE_UI) != 0)) []

/-- `BKE_main_relations_free`: destroy the ghash and the item pool and reset
`bmain->relations` to NULL; nothing happens when it already is NULL. -/
def BKE_main_relations_free (bmain : Main) : Main :=
  if bmain.relations.isSome then { bmain with relations := none } else bmain

/-- `BKE_main_relations_create`: free any previous build, then allocate a fresh
map and pool and fill them from the registry. -/
def BKE_main_relations_create (bmain : Main) (flag : Nat) : Main :=
  let bmain := if bmain.relations.isSome then BKE_main_relations_free bmain else bmain
  { bmain with relations := some ⟨relations_build_map bmain.ids flag, flag⟩ }

/-- `BKE_main_relations_tag_set`: early-out when not built, otherwise set or
clear the tag bits in every entry (`tags |= tag` / `tags &= ~tag`; the tags are
a non-negative bitmask, so the clearing `&= ~tag` is expressed as
`tags ^^^ (tags &&& tag)`, which removes exactly the common bits). -/
def BKE_main_relations_tag_set (bmain : Main) (tag : Nat) (value : Bool) : Main :=
  match bmain.relations with
  | none => bmain
  | some rel =>
    let m := rel.relations_from_pointers.map (fun p =>
      (p.1, { p.2 with tags := if value then p.2.tags ||| tag
                               else p.2.tags ^^^ (p.2.tags &&& tag) }))
    { bmain with relations := some { rel with relations_from_pointers := m } }

/-- The spec's `lookup()`: a plain `BLI_ghash_lookup` on the relations map, with
an unbuilt index yielding absent. -/
def main_relations_lookup (bmain : Main) (k : Nat) : Option MainIDRelationsEntry :=
  match bmain.relations with
  | none => none
  | some rel => relmap_lookup rel.relations_from_pointers k

/-- The relations map of a `Main`, empty when not built (helper for statements). -/
def relmapOf (bmain : Main) : RelMap :=
  match bmain.relations with
  | none => []
  | some rel => rel.relations_from_pointers

/-- A `GSet` of ID identities, modelled as a duplicate-free list. -/
abbrev GSet := List Nat

/-- `BLI_gset_add`: insert the key unless already present. -/
def BLI_gset_add (s : GSet) (k : Nat) : GSet :=
  if k ∈ s then s else k :: s

/-- `BKE_main_gset_create`: start from the given set (or a fresh empty one) and
add every ID of the registry. -/
def BKE_main_gset_create (bmain : Main) (gset : Option GSet) : GSet :=
  let g := match gset with
    | none => []
    | some s => s
  bmain.ids.foldl (fun s node => BLI_gset_add s node.id.ptr) g

/-- The keys of the relations map, in iteration order. -/
def relmap_keys (m : RelMap) : List Nat := m.map Prod.fst

/-- Total number of outgoing items over all entries. -/
def totalTo (m : RelMap) : Nat :=
  (m.map (fun p => p.2.to_ids.length)).sum

/-- Total number of incoming items over all entries. -/
def totalFrom (m : RelMap) : Nat :=
  (m.map (fun p => p.2.from_ids.length)).sum

/-- All outgoing edges as (source identity, target stamp, usage flag) triples. -/
def outgoingTriples (m : RelMap) : List (Nat × Nat × Nat) :=
  m.flatMap (fun p => p.2.to_ids.map (fun t => (p.1, t.session_uuid, t.usage_flag)))

/-- All incoming edges as (source identity, target identity, usage flag) triples. -/
def incomingTriples (m : RelMap) : List (Nat × Nat × Nat) :=
  m.flatMap (fun p => p.2.from_ids.map (fun f => (f.from_ptr, p.1, f.usage_flag)))

/-- The `session_uuid` of an ID is a function of its identity: the uuid
assignment `u` describes a session without identity reuse. -/
def IDConsistent (u : Nat → Nat) (id : ID) : Prop :=
  id.session_uuid = u id.ptr

/-- Every ID of the registry, and every non-null target of a reference field,
carries the uuid its identity was assigned: no stale pointer presents a foreign
`session_uuid`. -/
def RegistryConsistent (u : Nat → Nat) (ids : List IDNode) : Prop :=
  ∀ node ∈ ids, IDConsistent u node.id ∧
    ∀ f ∈ node.fields, ∀ t, f.target = some t → IDConsistent u t

/-- Every entry of the relations map is stamped with the uuid of the identity
it is keyed under. -/
def StampInv (u : Nat → Nat) (m : RelMap) : Prop :=
  ∀ p ∈ m, p.2.session_uuid = u p.1

/-- The `BLI_assert((*entry_p)->session_uuid == ...)` check on the pre-existing
branch of `BLI_ghash_ensure_p`: true when the key is absent or the stored stamp
matches the presented uuid. -/
def relmap_ensure_assert (m : RelMap) (k uuid : Nat) : Bool :=
  match relmap_lookup m k with
  | some e => e.session_uuid == uuid
  | none => true

/-- Whether both assertions of one `main_relations_create_idlink_cb` invocation
hold: the self-entry check on the incoming map, and the target-entry check on
the map as it stands when the second `BLI_ghash_ensure_p` runs. -/
def cb_asserts_ok (m : RelMap) (id_self : ID) (field_index : Nat)
    (field : RefField) : Bool :=
  match field.target with
  | none => true
  | some tgt =>
    relmap_ensure_assert m id_self.ptr id_self.session_uuid &&
    relmap_ensure_assert (cb_add_to m id_self field_index tgt field.usage_flag)
      tgt.ptr tgt.session_uuid

/-- The build of one ID, additionally accumulating whether every
`BLI_assert` encountered so far has held. -/
def relations_build_id_checked (include_ui : Bool) (acc : RelMap × Bool)
    (node : IDNode) : RelMap × Bool :=
  let ok := acc.2 && relmap_ensure_assert acc.1 node.id.ptr node.id.session_uuid
  let m := relmap_ensure acc.1 node.id.ptr node.id.session_uuid
  (walker_fields node include_ui).foldl
    (fun acc p => (main_relations_create_idlink_cb acc.1 node.id p.1 p.2,
                   acc.2 && cb_asserts_ok acc.1 node.id p.1 p.2))
    (m, ok)

/-- The full build with assertion tracking: same map as
`relations_build_map`, plus the conjunction of every stamp assertion. -/
def relations_build_checked (ids : List IDNode) (include_ui : Bool) :
    RelMap × Bool :=
  ids.foldl (relations_build_id_checked include_ui) ([], true)

/-- Registry with a single ID (identity 1, uuid 10) holding one NULL reference
field, the concrete instance for the null-field claims. -/
def exMainNullField : Main :=
  { ids := [{ id := ⟨1, 10⟩,
              fields := [{ target := none, usage_flag := 5, ui_only := false }] }],
    relations := none }

/-- A built `Main` whose single relation entry already carries tag bit 1 (as
reachable by `build()` followed by `tag_set(1, true)`): the concrete instance
for the tag set/clear claims. -/
def exMainTagged : Main :=
  { ids := [],
    relations := some
      { relations_from_pointers :=
          [(1, { session_uuid := 10, to_ids := [], from_ids := [], tags := 1 })],
        flag := 0 } }

/-! ### Spreadsheet geometry data source (collaborator layer) -/

/-- `AttributeDomain` of `DNA_customdata_types.h` as used by the spreadsheet. -/
inductive AttributeDomain
  | ATTR_DOMAIN_AUTO
  | ATTR_DOMAIN_POINT
  | ATTR_DOMAIN_EDGE
  | ATTR_DOMAIN_FACE
  | ATTR_DOMAIN_CORNER
  | ATTR_DOMAIN_CURVE
deriving DecidableEq, Repr

/-- The custom-data value types the column switch distinguishes; every other
`CD_*` code falls into the default case of the switch. -/
inductive CustomDataType
  | CD_PROP_FLOAT
  | CD_PROP_INT32
  | CD_PROP_BOOL
  | CD_PROP_FLOAT2
  | CD_PROP_FLOAT3
  | CD_PROP_COLOR
  | CD_other (code : Nat)
deriving DecidableEq, Repr

/-- `eSpreadsheetColumnValueType` tags of the displayable columns. -/
inductive SpreadsheetValueType
  | SPREADSHEET_VALUE_TYPE_FLOAT
  | SPREADSHEET_VALUE_TYPE_INT32
  | SPREADSHEET_VALUE_TYPE_BOOL
  | SPREADSHEET_VALUE_TYPE_FLOAT2
  | SPREADSHEET_VALUE_TYPE_FLOAT3
  | SPREADSHEET_VALUE_TYPE_COLOR
deriving DecidableEq, Repr

/-- A `bke::ReadAttributeLookup` as the column query consumes it: the domain
the attribute lives on, the value type of its virtual array, and the array
size (`varray->size()`); the float payloads themselves play no role in the
absence behaviour. -/
structure ReadAttributeLookup where
  domain : AttributeDomain
  dtype : CustomDataType
  size : Nat
deriving DecidableEq, Repr

/-- The geometry component surface used by the data source: its named
attributes. `attribute_try_get_for_read` is lookup by name. -/
structure GeometryComponent where
  attributes : List (String × ReadAttributeLookup)
deriving DecidableEq, Repr

/-- `GeometryDataSource`: the component it reads and the domain it displays. -/
structure GeometryDataSource where
  component : GeometryComponent
  domain : AttributeDomain
deriving DecidableEq, Repr

/-- The `ColumnValues` produced for a displayable column: value-type tag,
column name and row count. -/
structure ColumnValues where
  vtype : SpreadsheetValueType
  name : String
  size : Nat
deriving DecidableEq, Repr

/-- `component_->attribute_try_get_for_read(name)`: first attribute with the
requested name, absent otherwise. -/
def attribute_try_get_for_read (c : GeometryComponent) (name : String) :
    Option ReadAttributeLookup :=
  (c.attributes.find? (fun p => p.1 == name)).map Prod.snd

/-- `GeometryDataSource::get_column_values`: absent when the attribute does not
exist, when its domain differs from the data source's domain, and in the
default case of the value-type switch; otherwise a column tagged with the
matching spreadsheet value type. -/
def get_column_values (ds : GeometryDataSource) (name : String) :
    Option ColumnValues :=
  match attribute_try_get_for_read ds.component name with
  | none => none
  | some attr =>
    if attr.domain ≠ ds.domain then none
    else
      match attr.dtype with
      | .CD_PROP_FLOAT =>
        some ⟨.SPREADSHEET_VALUE_TYPE_FLOAT, name, attr.size⟩
      | .CD_PROP_INT32 =>
        some ⟨.SPREADSHEET_VALUE_TYPE_INT32, name, attr.size⟩
      | .CD_PROP_BOOL =>
        some ⟨.SPREADSHEET_VALUE_TYPE_BOOL, name, attr.size⟩
      | .CD_PROP_FLOAT2 =>
        some ⟨.SPREADSHEET_VALUE_TYPE_FLOAT2, name, attr.size⟩
      | .CD_PROP_FLOAT3 =>
        some ⟨.SPREADSHEET_VALUE_TYPE_FLOAT3, name, attr.size⟩
      | .CD_PROP_COLOR =>
        some ⟨.SPREADSHEET_VALUE_TYPE_COLOR, name, attr.size⟩
      | _ => none

/-- The value types the switch accepts (the six non-default cases). -/
def isDisplayableType : CustomDataType → Bool
  | .CD_PROP_FLOAT | .CD_PROP_INT32 | .CD_PROP_BOOL
  | .CD_PROP_FLOAT2 | .CD_PROP_FLOAT3 | .CD_PROP_COLOR => true
  | _ => false

/-! ### Association-map lemmas -/

theorem lookup_mem {m : RelMap} {k : Nat} {e : MainIDRelationsEntry}
    (h : relmap_lookup m k = some e) : (k, e) ∈ m := by
  induction m with
  | nil => simp [relmap_lookup] at h
  | cons p rest ih =>
    obtain ⟨k', e'⟩ := p
    by_cases hk : k' = k
    · subst hk
      simp [relmap_lookup] at h
      subst h
      exact List.mem_cons_self _ _
    · simp [relmap_lookup, hk] at h
      exact List.mem_cons_of_mem _ (ih h)

theorem ensure_of_isSome {m : RelMap} {k : Nat} (uuid : Nat)
    (h : (relmap_lookup m k).isSome) : relmap_ensure m k uuid = m := by
  unfold relmap_ensure
  cases hl : relmap_lookup m k with
  | none => rw [hl] at h; simp at h
  | some e => simp

theorem ensure_of_none {m : RelMap} {k : Nat} (uuid : Nat)
    (h : relmap_lookup m k = none) :
    relmap_ensure m k uuid = (k, freshEntry uuid) :: m := by
  unfold relmap_ensure
  rw [h]

theorem lookup_cons_self {m : RelMap} {k : Nat} {e : MainIDRelationsEntry} :
    relmap_lookup ((k, e) :: m) k = some e := by
  simp [relmap_lookup]

theorem lookup_cons_ne {m : RelMap} {k k' : Nat} {e : MainIDRelationsEntry}
    (h : k ≠ k') : relmap_lookup ((k, e) :: m) k' = relmap_lookup m k' := by
  simp [relmap_lookup, h]

theorem lookup_ensure_isSome (m : RelMap) (k uuid : Nat) :
    (relmap_lookup (relmap_ensure m k uuid) k).isSome := by
  unfold relmap_ensure
  cases hl : relmap_lookup m k with
  | none => simp [lookup_cons_self]
  | some e => simp [hl]

/-- `relmap_ensure` never modifies an existing entry: in particular a stamp
mismatch is never resolved by overwriting the stored stamp. -/
theorem lookup_ensure_of_some {m : RelMap} {k' : Nat} {e : MainIDRelationsEntry}
    (k uuid : Nat) (h : relmap_lookup m k' = some e) :
    relmap_lookup (relmap_ensure m k uuid) k' = some e := by
  unfold relmap_ensure
  cases hl : relmap_lookup m k with
  | some _ => exact h
  | none =>
    have hne : k ≠ k' := by
      intro he
      subst he
      rw [hl] at h
      exact Option.noConfusion h
    rw [lookup_cons_ne hne]
    exact h

theorem lookup_update_self {m : RelMap} {k : Nat} {e : MainIDRelationsEntry}
    (f : MainIDRelationsEntry → MainIDRelationsEntry)
    (h : relmap_lookup m k = some e) :
    relmap_lookup (relmap_update m k f) k = some (f e) := by
  induction m with
  | nil => simp [relmap_lookup] at h
  | cons p rest ih =>
    obtain ⟨k', e'⟩ := p
    by_cases hk : k' = k
    · subst hk
      simp [relmap_lookup] at h
      subst h
      simp [relmap_update, relmap_lookup]
    · simp [relmap_lookup, hk] at h
      simp [relmap_update, relmap_lookup, hk]
      exact ih h

theorem lookup_update_ne {m : RelMap} {k k' : Nat}
    (f : MainIDRelationsEntry → MainIDRelationsEntry) (h : k' ≠ k) :
    relmap_lookup (relmap_update m k f) k' = relmap_lookup m k' := by
  induction m with
  | nil => simp [relmap_update]
  | cons p rest ih =>
    obtain ⟨k₀, e₀⟩ := p
    by_cases hk : k₀ = k
    · subst hk
      have : k₀ ≠ k' := fun he => h he.symm
      simp [relmap_update, relmap_lookup, this]
    · simp [relmap_update, hk, relmap_lookup]
      by_cases hk' : k₀ = k'
      · simp [hk']
      · simp [hk', ih]

theorem update_of_lookup_none {m : RelMap} {k : Nat}
    (f : MainIDRelationsEntry → MainIDRelationsEntry)
    (h : relmap_lookup m k = none) : relmap_update m k f = m := by
  induction m with
  | nil => simp [relmap_update]
  | cons p rest ih =>
    obtain ⟨k', e'⟩ := p
    by_cases hk : k' = k
    · subst hk; simp [relmap_lookup] at h
    · simp [relmap_lookup, hk] at h
      simp [relmap_update, hk, ih h]

theorem keys_update (m : RelMap) (k : Nat)
    (f : MainIDRelationsEntry → MainIDRelationsEntry) :
    relmap_keys (relmap_update m k f) = relmap_keys m := by
  induction m with
  | nil => simp [relmap_update]
  | cons p rest ih =>
    obtain ⟨k', e'⟩ := p
    by_cases hk : k' = k
    · subst hk; simp [relmap_update, relmap_keys]
    · simp [relmap_update, hk, relmap_keys] at ih ⊢
      exact ih

theorem mem_keys_iff_lookup_isSome {m : RelMap} {k : Nat} :
    k ∈ relmap_keys m ↔ (relmap_lookup m k).isSome := by
  induction m with
  | nil => simp [relmap_keys, relmap_lookup]
  | cons p rest ih =>
    obtain ⟨k', e'⟩ := p
    by_cases hk : k' = k
    · subst hk; simp [relmap_keys, relmap_lookup]
    · rw [show relmap_keys ((k', e') :: rest) = k' :: relmap_keys rest from rfl,
        lookup_cons_ne hk]
      simp [List.mem_cons, ih, Ne.symm hk]

theorem totalTo_ensure (m : RelMap) (k uuid : Nat) :
    totalTo (relmap_ensure m k uuid) = totalTo m := by
  unfold relmap_ensure
  cases hl : relmap_lookup m k with
  | some e => rfl
  | none => simp [totalTo, freshEntry]

theorem totalFrom_ensure (m : RelMap) (k uuid : Nat) :
    totalFrom (relmap_ensure m k uuid) = totalFrom m := by
  unfold relmap_ensure
  cases hl : relmap_lookup m k with
  | some e => rfl
  | none => simp [totalFrom, freshEntry]

theorem totalTo_update_succ {m : RelMap} {k : Nat}
    {f : MainIDRelationsEntry → MainIDRelationsEntry}
    (hf : ∀ e, (f e).to_ids.length = e.to_ids.length + 1)
    (hk : (relmap_lookup m k).isSome) :
    totalTo (relmap_update m k f) = totalTo m + 1 := by
  induction m with
  | nil => simp [relmap_lookup] at hk
  | cons p rest ih =>
    obtain ⟨k', e'⟩ := p
    by_cases h : k' = k
    · subst h
      simp [relmap_update, totalTo, hf]
      omega
    · rw [lookup_cons_ne h] at hk
      simp [relmap_update, h, totalTo] at ih ⊢
      rw [ih hk]
      omega

theorem totalTo_update_const {m : RelMap} {k : Nat}
    {f : MainIDRelationsEntry → MainIDRelationsEntry}
    (hf : ∀ e, (f e).to_ids.length = e.to_ids.length) :
    totalTo (relmap_update m k f) = totalTo m := by
  induction m with
  | nil => simp [relmap_update]
  | cons p rest ih =>
    obtain ⟨k', e'⟩ := p
    by_cases h : k' = k
    · subst h
      simp [relmap_update, totalTo, hf]
    · simp [relmap_update, h, totalTo] at ih ⊢
      rw [ih]

theorem totalFrom_update_succ {m : RelMap} {k : Nat}
    {f : MainIDRelationsEntry → MainIDRelationsEntry}
    (hf : ∀ e, (f e).from_ids.length = e.from_ids.length + 1)
    (hk : (relmap_lookup m k).isSome) :
    totalFrom (relmap_update m k f) = totalFrom m + 1 := by
  induction m with
  | nil => simp [relmap_lookup] at hk
  | cons p rest ih =>
    obtain ⟨k', e'⟩ := p
    by_cases h : k' = k
    · subst h
      simp [relmap_update, totalFrom, hf]
      omega
    · rw [lookup_cons_ne h] at hk
      simp [relmap_update, h, totalFrom] at ih ⊢
      rw [ih hk]
      omega

theorem totalFrom_update_const {m : RelMap} {k : Nat}
    {f : MainIDRelationsEntry → MainIDRelationsEntry}
    (hf : ∀ e, (f e).from_ids.length = e.from_ids.length) :
    totalFrom (relmap_update m k f) = totalFrom m := by
  induction m with
  | nil => simp [relmap_update]
  | cons p rest ih =>
    obtain ⟨k', e'⟩ := p
    by_cases h : k' = k
    · subst h
      simp [relmap_update, totalFrom, hf]
    · simp [relmap_update, h, totalFrom] at ih ⊢
      rw [ih]

/-- An update that does not touch `to_ids` is invisible through the `to_ids`
projection of any lookup. -/
theorem lookup_update_map_toIds (m : RelMap) (k : Nat)
    (f : MainIDRelationsEntry → MainIDRelationsEntry)
    (hf : ∀ e, (f e).to_ids = e.to_ids) (k' : Nat) :
    (relmap_lookup (relmap_update m k f) k').map MainIDRelationsEntry.to_ids
      = (relmap_lookup m k').map MainIDRelationsEntry.to_ids := by
  by_cases h : k' = k
  · subst h
    cases hl : relmap_lookup m k' with
    | none => rw [update_of_lookup_none f hl, hl]
    | some e => rw [lookup_update_self f hl]; simp [hl, hf]
  · rw [lookup_update_ne f h]

/-- Ensuring a key leaves the `to_ids` projection of every existing lookup
unchanged (an absent key only prepends a fresh empty entry). -/
theorem lookup_ensure_map_toIds {m : RelMap} {k' : Nat} (k uuid : Nat)
    (h : (relmap_lookup m k').isSome) :
    (relmap_lookup (relmap_ensure m k uuid) k').map MainIDRelationsEntry.to_ids
      = (relmap_lookup m k').map MainIDRelationsEntry.to_ids := by
  cases hl : relmap_lookup m k' with
  | none => rw [hl] at h; simp at h
  | some e => rw [lookup_ensure_of_some k uuid hl]

/-! ### Build normal form and gset lemmas -/

/-- `BKE_main_relations_create` always yields the same `Main`: original ids with
a freshly built relations map (any previous build is discarded first). -/
theorem relations_create_eq (bmain : Main) (flag : Nat) :
    BKE_main_relations_create bmain flag
      = Main.mk bmain.ids (some ⟨relations_build_map bmain.ids flag, flag⟩) := by
  unfold BKE_main_relations_create BKE_main_relations_free
  cases h : bmain.relations with
  | none => rfl
  | some rel => rfl

theorem mem_gset_add {s : GSet} {k x : Nat} :
    x ∈ BLI_gset_add s k ↔ x = k ∨ x ∈ s := by
  unfold BLI_gset_add
  by_cases h : k ∈ s
  · simp only [if_pos h]
    constructor
    · exact Or.inr
    · rintro (rfl | hx)
      · exact h
      · exact hx
  · simp [if_neg h, List.mem_cons]

theorem mem_gset_foldl (ids : List IDNode) (g : GSet) (x : Nat) :
    x ∈ ids.foldl (fun s node => BLI_gset_add s node.id.ptr) g
      ↔ x ∈ g ∨ ∃ n ∈ ids, n.id.ptr = x := by
  induction ids generalizing g with
  | nil => simp
  | cons n rest ih =>
    rw [List.foldl_cons, ih, mem_gset_add]
    constructor
    · rintro ((rfl | hg) | ⟨n', hn', rfl⟩)
      · exact Or.inr ⟨n, List.mem_cons_self _ _, rfl⟩
      · exact Or.inl hg
      · exact Or.inr ⟨n', List.mem_cons_of_mem _ hn', rfl⟩
    · rintro (hg | ⟨n', hn', rfl⟩)
      · exact Or.inl (Or.inr hg)
      · rcases List.mem_cons.mp hn' with rfl | hn'
        · exact Or.inl (Or.inl rfl)
        · exact Or.inr ⟨n', hn', rfl⟩

/-! ### Key membership and uniqueness through the build -/

theorem mem_keys_ensure_self (m : RelMap) (k uuid : Nat) :
    k ∈ relmap_keys (relmap_ensure m k uuid) :=
  mem_keys_iff_lookup_isSome.mpr (lookup_ensure_isSome m k uuid)

theorem keys_ensure_superset {m : RelMap} {k' : Nat} (k uuid : Nat)
    (h : k' ∈ relmap_keys m) : k' ∈ relmap_keys (relmap_ensure m k uuid) := by
  unfold relmap_ensure
  cases relmap_lookup m k with
  | some e => exact h
  | none => exact List.mem_cons_of_mem _ h

theorem keys_update_superset {m : RelMap} {k' : Nat} (k : Nat)
    (f : MainIDRelationsEntry → MainIDRelationsEntry)
    (h : k' ∈ relmap_keys m) : k' ∈ relmap_keys (relmap_update m k f) := by
  rw [keys_update]; exact h

theorem nodup_keys_update {m : RelMap} (k : Nat)
    (f : MainIDRelationsEntry → MainIDRelationsEntry)
    (h : (relmap_keys m).Nodup) : (relmap_keys (relmap_update m k f)).Nodup := by
  rw [keys_update]; exact h

theorem keys_cb_superset {m : RelMap} {k' : Nat} (id_self : ID) (i : Nat)
    (field : RefField) (h : k' ∈ relmap_keys m) :
    k' ∈ relmap_keys (main_relations_create_idlink_cb m id_self i field) := by
  unfold main_relations_create_idlink_cb
  cases field.target with
  | none => exact h
  | some tgt =>
    simp only [cb_add_from, cb_add_to]
    exact keys_update_superset _ _ (keys_ensure_superset _ _
      (keys_update_superset _ _ (keys_ensure_superset _ _ h)))

theorem keys_fields_foldl_superset {k' : Nat} (id_self : ID)
    (fields : List (Nat × RefField)) :
    ∀ m : RelMap, k' ∈ relmap_keys m →
      k' ∈ relmap_keys (fields.foldl
        (fun m p => main_relations_create_idlink_cb m id_self p.1 p.2) m) := by
  induction fields with
  | nil => exact fun m h => h
  | cons p rest ih =>
    intro m h
    exact ih _ (keys_cb_superset id_self p.1 p.2 h)

theorem keys_build_id_superset {m : RelMap} {k' : Nat} (b : Bool) (node : IDNode)
    (h : k' ∈ relmap_keys m) :
    k' ∈ relmap_keys (relations_build_id b m node) := by
  unfold relations_build_id
  exact keys_fields_foldl_superset node.id _ _
    (keys_ensure_superset node.id.ptr node.id.session_uuid h)

theorem mem_keys_build_id (b : Bool) (m : RelMap) (node : IDNode) :
    node.id.ptr ∈ relmap_keys (relations_build_id b m node) := by
  unfold relations_build_id
  exact keys_fields_foldl_superset node.id _ _
    (mem_keys_ensure_self m node.id.ptr node.id.session_uuid)

theorem keys_build_foldl_superset {k' : Nat} (b : Bool) (ids : List IDNode) :
    ∀ m : RelMap, k' ∈ relmap_keys m →
      k' ∈ relmap_keys (ids.foldl (relations_build_id b) m) := by
  induction ids with
  | nil => exact fun m h => h
  | cons node rest ih =>
    intro m h
    exact ih _ (keys_build_id_superset b node h)

theorem mem_keys_build (b : Bool) (ids : List IDNode) (node : IDNode)
    (hmem : node ∈ ids) :
    ∀ m : RelMap, node.id.ptr ∈ relmap_keys (ids.foldl (relations_build_id b) m) := by
  induction ids with
  | nil => cases hmem
  | cons n rest ih =>
    intro m
    rcases List.mem_cons.mp hmem with rfl | hmem'
    · exact keys_build_foldl_superset b rest _ (mem_keys_build_id b m node)
    · exact ih hmem' _

theorem nodup_keys_ensure {m : RelMap} (k uuid : Nat)
    (h : (relmap_keys m).Nodup) : (relmap_keys (relmap_ensure m k uuid)).Nodup := by
  unfold relmap_ensure
  cases hl : relmap_lookup m k with
  | some e => exact h
  | none =>
    refine List.Nodup.cons ?_ h
    intro hmem
    have := mem_keys_iff_lookup_isSome.mp hmem
    rw [hl] at this
    simp at this

theorem nodup_keys_cb {m : RelMap} (id_self : ID) (i : Nat) (field : RefField)
    (h : (relmap_keys m).Nodup) :
    (relmap_keys (main_relations_create_idlink_cb m id_self i field)).Nodup := by
  unfold main_relations_create_idlink_cb
  cases field.target with
  | none => exact h
  | some tgt =>
    simp only [cb_add_from, cb_add_to]
    exact nodup_keys_update _ _ (nodup_keys_ensure _ _
      (nodup_keys_update _ _ (nodup_keys_ensure _ _ h)))

theorem nodup_keys_fields_foldl (id_self : ID) (fields : List (Nat × RefField)) :
    ∀ m : RelMap, (relmap_keys m).Nodup →
      (relmap_keys (fields.foldl
        (fun m p => main_relations_create_idlink_cb m id_self p.1 p.2) m)).Nodup := by
  induction fields with
  | nil => exact fun m h => h
  | cons p rest ih =>
    intro m h
    exact ih _ (nodup_keys_cb id_self p.1 p.2 h)

theorem nodup_keys_build_id {m : RelMap} (b : Bool) (node : IDNode)
    (h : (relmap_keys m).Nodup) :
    (relmap_keys (relations_build_id b m node)).Nodup := by
  unfold relations_build_id
  exact nodup_keys_fields_foldl node.id _ _
    (nodup_keys_ensure node.id.ptr node.id.session_uuid h)

theorem nodup_keys_build (b : Bool) (ids : List IDNode) :
    ∀ m : RelMap, (relmap_keys m).Nodup →
      (relmap_keys (ids.foldl (relations_build_id b) m)).Nodup := by
  induction ids with
  | nil => exact fun m h => h
  | cons node rest ih =>
    intro m h
    exact ih _ (nodup_keys_build_id b node h)

/-! ### Claims -/

/-- C1 (amended): for a reference field whose current value is NULL, the
relation callback records nothing at all — no outgoing Edge Record (the
unset-sentinel branch is unreachable dead code under the enclosing
`if (*id_pointer)` guard) and no incoming Edge Record. -/
theorem claim_C1_null_field_records_nothing (m : RelMap) (id_self : ID)
    (i uflag : Nat) (ui : Bool) :
    main_relations_create_idlink_cb m id_self i
      { target := none, usage_flag := uflag, ui_only := ui } = m := rfl

/-- C1 (counterexample): building on a registry whose single ID has one NULL
reference field leaves that ID's entry with an empty outgoing list — zero
outgoing Edge Records, not the claimed exactly one with the unset sentinel. -/
theorem claim_C1_counterexample :
    relmapOf (BKE_main_relations_create exMainNullField 0)
      = [(1, { session_uuid := 10, to_ids := [], from_ids := [], tags := 0 })] ∧
    totalTo (relmapOf (BKE_main_relations_create exMainNullField 0)) = 0 ∧
    (0 : Nat) ≠ 1 := by
  decide

/-- C3: for every reference field discovered with a non-null target, exactly
one outgoing Edge Record is added (global outgoing count goes up by one) and it
sits at the head of the source's `to_ids`, stamped with the target's identity;
exactly one incoming Edge Record is added at the head of the target's
`from_ids`, pointing back at the source; both carry the same usage flags. -/
theorem claim_C3_nonnull_edge_records (m : RelMap) (id_self : ID) (i : Nat)
    (tgt : ID) (uflag : Nat) (ui : Bool) :
    (∃ e, relmap_lookup
        (main_relations_create_idlink_cb m id_self i
          { target := some tgt, usage_flag := uflag, ui_only := ui }) id_self.ptr
        = some e ∧
      e.to_ids.head? = some ⟨id_self.ptr, i, tgt.session_uuid, uflag⟩) ∧
    (∃ e, relmap_lookup
        (main_relations_create_idlink_cb m id_self i
          { target := some tgt, usage_flag := uflag, ui_only := ui }) tgt.ptr
        = some e ∧
      e.from_ids.head? = some ⟨id_self.ptr, id_self.session_uuid, uflag⟩) ∧
    totalTo (main_relations_create_idlink_cb m id_self i
        { target := some tgt, usage_flag := uflag, ui_only := ui })
      = totalTo m + 1 ∧
    totalFrom (main_relations_create_idlink_cb m id_self i
        { target := some tgt, usage_flag := uflag, ui_only := ui })
      = totalFrom m + 1 := by
  let toItem : ToItem := ⟨id_self.ptr, i, tgt.session_uuid, uflag⟩
  let fromItem : FromItem := ⟨id_self.ptr, id_self.session_uuid, uflag⟩
  let m1 := relmap_ensure m id_self.ptr id_self.session_uuid
  let m2 := relmap_update m1 id_self.ptr
    (fun e => { e with to_ids := toItem :: e.to_ids })
  let m3 := relmap_ensure m2 tgt.ptr tgt.session_uuid
  let m4 := relmap_update m3 tgt.ptr
    (fun e => { e with from_ids := fromItem :: e.from_ids })
  have hcb : main_relations_create_idlink_cb m id_self i
      { target := some tgt, usage_flag := uflag, ui_only := ui } = m4 := rfl
  rw [hcb]
  obtain ⟨e1, hl1⟩ : ∃ e, relmap_lookup m1 id_self.ptr = some e :=
    Option.isSome_iff_exists.mp
      (lookup_ensure_isSome m id_self.ptr id_self.session_uuid)
  have hl2 : relmap_lookup m2 id_self.ptr
      = some { e1 with to_ids := toItem :: e1.to_ids } :=
    lookup_update_self _ hl1
  have h2s : (relmap_lookup m2 id_self.ptr).isSome := by rw [hl2]; rfl
  obtain ⟨e3, hl3⟩ : ∃ e, relmap_lookup m3 tgt.ptr = some e :=
    Option.isSome_iff_exists.mp
      (lookup_ensure_isSome m2 tgt.ptr tgt.session_uuid)
  have hl4 : relmap_lookup m4 tgt.ptr
      = some { e3 with from_ids := fromItem :: e3.from_ids } :=
    lookup_update_self _ hl3
  have hto : (relmap_lookup m4 id_self.ptr).map MainIDRelationsEntry.to_ids
      = some (toItem :: e1.to_ids) := by
    show (relmap_lookup (relmap_update m3 tgt.ptr
        (fun e => { e with from_ids := fromItem :: e.from_ids }))
        id_self.ptr).map MainIDRelationsEntry.to_ids = _
    rw [lookup_update_map_toIds m3 tgt.ptr
        (fun e => { e with from_ids := fromItem :: e.from_ids })
        (fun e => rfl) id_self.ptr,
      lookup_ensure_map_toIds tgt.ptr tgt.session_uuid h2s, hl2]
    rfl
  have t1 : totalTo m4 = totalTo m + 1 := by
    have s4 : totalTo m4 = totalTo m3 := totalTo_update_const (fun e => rfl)
    have s3 : totalTo m3 = totalTo m2 := totalTo_ensure m2 tgt.ptr tgt.session_uuid
    have s2 : totalTo m2 = totalTo m1 + 1 :=
      totalTo_update_succ (fun e => rfl) (by rw [hl1]; rfl)
    have s1 : totalTo m1 = totalTo m := totalTo_ensure m id_self.ptr id_self.session_uuid
    omega
  have t2 : totalFrom m4 = totalFrom m + 1 := by
    have h3s : (relmap_lookup m3 tgt.ptr).isSome := by rw [hl3]; rfl
    have s4 : totalFrom m4 = totalFrom m3 + 1 := totalFrom_update_succ (fun e => rfl) h3s
    have s3 : totalFrom m3 = totalFrom m2 := totalFrom_ensure m2 tgt.ptr tgt.session_uuid
    have s2 : totalFrom m2 = totalFrom m1 := totalFrom_update_const (fun e => rfl)
    have s1 : totalFrom m1 = totalFrom m := totalFrom_ensure m id_self.ptr id_self.session_uuid
    omega
  refine ⟨?_, ⟨_, hl4, rfl⟩, t1, t2⟩
  cases hm : relmap_lookup m4 id_self.ptr with
  | none => rw [hm] at hto; exact absurd hto (by simp)
  | some e4 =>
    rw [hm] at hto
    simp only [Option.map, Option.some.injEq] at hto
    exact ⟨e4, rfl, by rw [hto]; rfl⟩

/-- C5: calling `build()` twice in a row with no registry mutation in between
produces the same index as a single call — the resulting `Main` is equal, so in
particular the outgoing and incoming edge triples coincide. -/
theorem claim_C5_build_idempotent (bmain : Main) (flag : Nat) :
    BKE_main_relations_create (BKE_main_relations_create bmain flag) flag
      = BKE_main_relations_create bmain flag ∧
    outgoingTriples (relmapOf
        (BKE_main_relations_create (BKE_main_relations_create bmain flag) flag))
      = outgoingTriples (relmapOf (BKE_main_relations_create bmain flag)) ∧
    incomingTriples (relmapOf
        (BKE_main_relations_create (BKE_main_relations_create bmain flag) flag))
      = incomingTriples (relmapOf (BKE_main_relations_create bmain flag)) := by
  have h : BKE_main_relations_create (BKE_main_relations_create bmain flag) flag
      = BKE_main_relations_create bmain flag := by
    rw [relations_create_eq bmain flag, relations_create_eq]
  exact ⟨h, by rw [h], by rw [h]⟩

/-- C6: `free()` sets the index to the not-built state, is a no-op on an
unbuilt index, and any subsequent `lookup()` returns absent. -/
theorem claim_C6_free_resets (bmain : Main) :
    (BKE_main_relations_free bmain).relations = none ∧
    (∀ ids, BKE_main_relations_free (Main.mk ids none) = Main.mk ids none) ∧
    (∀ k, main_relations_lookup (BKE_main_relations_free bmain) k = none) := by
  refine ⟨?_, fun ids => rfl, fun k => ?_⟩
  · cases h : bmain.relations with
    | none => simp [BKE_main_relations_free, h]
    | some rel => simp [BKE_main_relations_free, h]
  · cases h : bmain.relations with
    | none => simp [BKE_main_relations_free, main_relations_lookup, h]
    | some rel => simp [BKE_main_relations_free, main_relations_lookup, h]

/-- C9: `BKE_main_gset_create` returns a set containing the identity of every
ID of the registry; when an existing set is passed in, the result is exactly
that set extended with the registry's identities, all previous members kept. -/
theorem claim_C9_gset_membership (bmain : Main) (s : GSet) (x : Nat) :
    (x ∈ BKE_main_gset_create bmain (some s)
      ↔ x ∈ s ∨ ∃ n ∈ bmain.ids, n.id.ptr = x) ∧
    (x ∈ BKE_main_gset_create bmain none
      ↔ ∃ n ∈ bmain.ids, n.id.ptr = x) := by
  constructor
  · exact mem_gset_foldl bmain.ids s x
  · simpa using mem_gset_foldl bmain.ids [] x

/-- C2: after `build()`, every ID currently in the registry has exactly one
relation entry in the map, including IDs with zero reference fields and zero
referencers (the build loop ensures an entry before walking each ID). -/
theorem claim_C2_one_entry_per_object (bmain : Main) (flag : Nat) (node : IDNode)
    (h : node ∈ bmain.ids) :
    ∃ rel, (BKE_main_relations_create bmain flag).relations = some rel ∧
      (relmap_keys rel.relations_from_pointers).count node.id.ptr = 1 := by
  refine ⟨⟨relations_build_map bmain.ids flag, flag⟩,
    by rw [relations_create_eq], ?_⟩
  exact List.count_eq_one_of_mem
    (nodup_keys_build _ bmain.ids [] (by simp [relmap_keys]))
    (mem_keys_build _ bmain.ids node h [])

/-- Witness for the per-object entry claim at the one-ID registry. -/
theorem claim_C2_one_entry_per_object_witness :
    ∃ rel, (BKE_main_relations_create exMainNullField 0).relations = some rel ∧
      (relmap_keys rel.relations_from_pointers).count 1 = 1 :=
  claim_C2_one_entry_per_object exMainNullField 0
    { id := ⟨1, 10⟩,
      fields := [{ target := none, usage_flag := 5, ui_only := false }] }
    (by decide)

/-- Clearing a mask from a non-negative bitmask via `x ^^^ (x &&& t)` clears
exactly the bits of `t`, which is what the C `x &= ~t` does. -/
theorem testBit_clear_mask (x t : Nat) (i : Nat) :
    (x ^^^ (x &&& t)).testBit i = (x.testBit i && !(t.testBit i)) := by
  rw [Nat.testBit_xor, Nat.testBit_land]
  cases x.testBit i <;> cases t.testBit i <;> rfl

/-- Setting then clearing a mask is the same as clearing it directly. -/
theorem set_then_clear_mask (x t : Nat) :
    (x ||| t) ^^^ ((x ||| t) &&& t) = x ^^^ (x &&& t) := by
  apply Nat.eq_of_testBit_eq
  intro i
  rw [testBit_clear_mask, testBit_clear_mask, Nat.testBit_or]
  cases x.testBit i <;> cases t.testBit i <;> rfl

/-- C4 (counterexample): on a built index whose single entry already carries
tag bit 1, `tag_all(1, true)` followed by `tag_all(1, false)` leaves the entry
with tags 0, not the pre-call value 1: the pre-call bitset is not restored. -/
theorem claim_C4_counterexample :
    main_relations_lookup (BKE_main_relations_tag_set
        (BKE_main_relations_tag_set exMainTagged 1 true) 1 false) 1
      = some { session_uuid := 10, to_ids := [], from_ids := [], tags := 0 } ∧
    main_relations_lookup exMainTagged 1
      = some { session_uuid := 10, to_ids := [], from_ids := [], tags := 1 } ∧
    BKE_main_relations_tag_set (BKE_main_relations_tag_set exMainTagged 1 true)
        1 false
      ≠ exMainTagged := by
  decide

/-- C4 (amended): `tag_all(T, true)` followed by `tag_all(T, false)` leaves
every entry's tag bitset equal to its pre-call value with the bits of `T`
cleared — so the pre-call bitset is restored exactly when no entry had a bit of
`T` set beforehand (as immediately after a build, where all tags are zero). -/
theorem claim_C4_tag_set_clear (ids : List IDNode) (rel : MainIDRelations)
    (tag : Nat) :
    BKE_main_relations_tag_set
        (BKE_main_relations_tag_set (Main.mk ids (some rel)) tag true) tag false
      = Main.mk ids (some
          { relations_from_pointers := rel.relations_from_pointers.map (fun p =>
              (p.1, { p.2 with tags := p.2.tags ^^^ (p.2.tags &&& tag) })),
            flag := rel.flag }) ∧
    ∀ p ∈ rel.relations_from_pointers, ∀ i,
      ((p.2.tags ||| tag) ^^^ ((p.2.tags ||| tag) &&& tag)).testBit i
        = (p.2.tags.testBit i && !(tag.testBit i)) := by
  constructor
  · simp only [BKE_main_relations_tag_set, List.map_map, reduceIte]
    refine congrArg (fun m => Main.mk ids (some ⟨m, rel.flag⟩)) ?_
    apply List.map_congr_left
    intro p _
    simp [Function.comp, set_then_clear_mask]
  · intro p _ i
    rw [set_then_clear_mask, testBit_clear_mask]

theorem lookup_map_entry (m : RelMap)
    (g : MainIDRelationsEntry → MainIDRelationsEntry) (k : Nat) :
    relmap_lookup (m.map (fun p => (p.1, g p.2))) k
      = (relmap_lookup m k).map g := by
  induction m with
  | nil => rfl
  | cons p rest ih =>
    obtain ⟨k₀, e₀⟩ := p
    by_cases h : k₀ = k
    · subst h; simp [relmap_lookup]
    · simp [relmap_lookup, h, ih]

theorem keys_map_entry (m : RelMap)
    (g : MainIDRelationsEntry → MainIDRelationsEntry) :
    relmap_keys (m.map (fun p => (p.1, g p.2))) = relmap_keys m := by
  simp [relmap_keys, List.map_map, Function.comp]

/-- C10: `tag_set` on a built index touches only the bits of the given tag:
the registry, the build flag, the set of entries, every entry's stamp and both
edge lists are unchanged, and every tag bit outside the mask keeps its value. -/
theorem claim_C10_tag_set_frame (ids : List IDNode) (rel : MainIDRelations)
    (tag : Nat) (value : Bool) :
    (BKE_main_relations_tag_set (Main.mk ids (some rel)) tag value).ids = ids ∧
    ∃ rel', (BKE_main_relations_tag_set (Main.mk ids (some rel)) tag value).relations
        = some rel' ∧
      rel'.flag = rel.flag ∧
      relmap_keys rel'.relations_from_pointers
        = relmap_keys rel.relations_from_pointers ∧
      (∀ k, (relmap_lookup rel'.relations_from_pointers k).map
            (fun e => (e.session_uuid, e.to_ids, e.from_ids))
          = (relmap_lookup rel.relations_from_pointers k).map
            (fun e => (e.session_uuid, e.to_ids, e.from_ids))) ∧
      (∀ k e e' i, relmap_lookup rel.relations_from_pointers k = some e →
        relmap_lookup rel'.relations_from_pointers k = some e' →
        tag.testBit i = false →
        e'.tags.testBit i = e.tags.testBit i) := by
  let g : MainIDRelationsEntry → MainIDRelationsEntry := fun e =>
    { e with tags := if value then e.tags ||| tag
                     else e.tags ^^^ (e.tags &&& tag) }
  refine ⟨rfl,
    ⟨rel.relations_from_pointers.map (fun p => (p.1, g p.2)), rel.flag⟩,
    ?_, rfl, keys_map_entry rel.relations_from_pointers g, ?_, ?_⟩
  · rfl
  · intro k
    rw [lookup_map_entry rel.relations_from_pointers g k]
    cases relmap_lookup rel.relations_from_pointers k <;> rfl
  · intro k e e' i h h' hbit
    rw [lookup_map_entry rel.relations_from_pointers g k, h] at h'
    simp only [Option.map] at h'
    injection h' with h'
    subst h'
    cases value
    · show (e.tags ^^^ (e.tags &&& tag)).testBit i = e.tags.testBit i
      rw [testBit_clear_mask, hbit]
      simp
    · show (e.tags ||| tag).testBit i = e.tags.testBit i
      rw [Nat.testBit_or, hbit]
      simp

theorem snd_mem_of_mem_enumFrom {α : Type} {p : Nat × α} :
    ∀ {n : Nat} {l : List α}, p ∈ List.enumFrom n l → p.2 ∈ l := by
  intro n l
  induction l generalizing n with
  | nil => intro h; cases h
  | cons a t ih =>
    intro h
    rcases List.mem_cons.mp h with rfl | h'
    · exact List.mem_cons_self _ _
    · exact List.mem_cons_of_mem _ (ih h')

theorem walker_fields_mem {node : IDNode} {b : Bool} {p : Nat × RefField}
    (h : p ∈ walker_fields node b) : p.2 ∈ node.fields :=
  snd_mem_of_mem_enumFrom (List.mem_of_mem_filter h)

theorem stampInv_ensure {u : Nat → Nat} {m : RelMap} (k uuid : Nat)
    (hu : uuid = u k) (h : StampInv u m) :
    StampInv u (relmap_ensure m k uuid) := by
  unfold relmap_ensure
  cases hl : relmap_lookup m k with
  | some e => exact h
  | none =>
    intro p hp
    rcases List.mem_cons.mp hp with rfl | hp'
    · simpa [freshEntry] using hu
    · exact h p hp'

theorem stampInv_update {u : Nat → Nat} {m : RelMap} (k : Nat)
    (f : MainIDRelationsEntry → MainIDRelationsEntry)
    (hf : ∀ e, (f e).session_uuid = e.session_uuid)
    (h : StampInv u m) : StampInv u (relmap_update m k f) := by
  induction m with
  | nil => exact h
  | cons p rest ih =>
    obtain ⟨k₀, e₀⟩ := p
    have h₀ := h (k₀, e₀) (List.mem_cons_self _ _)
    have hrest : StampInv u rest := fun q hq => h q (List.mem_cons_of_mem _ hq)
    intro q hq
    unfold relmap_update at hq
    by_cases hk : k₀ = k
    · rw [if_pos hk] at hq
      rcases List.mem_cons.mp hq with rfl | hq'
      · show (f e₀).session_uuid = u k₀
        rw [hf]
        exact h₀
      · exact hrest q hq'
    · rw [if_neg hk] at hq
      rcases List.mem_cons.mp hq with rfl | hq'
      · exact h₀
      · exact ih hrest q hq'

theorem ensure_assert_of_stampInv {u : Nat → Nat} {m : RelMap} {k uuid : Nat}
    (h : StampInv u m) (hu : uuid = u k) :
    relmap_ensure_assert m k uuid = true := by
  unfold relmap_ensure_assert
  cases hl : relmap_lookup m k with
  | none => rfl
  | some e =>
    have he := h (k, e) (lookup_mem hl)
    simp [hu]
    exact he

theorem stampInv_cb {u : Nat → Nat} {m : RelMap} (id_self : ID) (i : Nat)
    (field : RefField) (hself : IDConsistent u id_self)
    (htgt : ∀ t, field.target = some t → IDConsistent u t)
    (h : StampInv u m) :
    StampInv u (main_relations_create_idlink_cb m id_self i field) := by
  unfold main_relations_create_idlink_cb
  cases hf : field.target with
  | none => exact h
  | some tgt =>
    have ht : IDConsistent u tgt := htgt tgt hf
    simp only [cb_add_from, cb_add_to]
    exact stampInv_update tgt.ptr _ (fun e => rfl)
      (stampInv_ensure tgt.ptr tgt.session_uuid ht
        (stampInv_update id_self.ptr _ (fun e => rfl)
          (stampInv_ensure id_self.ptr id_self.session_uuid hself h)))

theorem cb_asserts_ok_of_stampInv {u : Nat → Nat} {m : RelMap} (id_self : ID)
    (i : Nat) (field : RefField) (hself : IDConsistent u id_self)
    (htgt : ∀ t, field.target = some t → IDConsistent u t)
    (h : StampInv u m) :
    cb_asserts_ok m id_self i field = true := by
  unfold cb_asserts_ok
  cases hf : field.target with
  | none => rfl
  | some tgt =>
    have ht : IDConsistent u tgt := htgt tgt hf
    rw [Bool.and_eq_true]
    refine ⟨ensure_assert_of_stampInv h hself, ?_⟩
    refine ensure_assert_of_stampInv ?_ ht
    simp only [cb_add_to]
    exact stampInv_update id_self.ptr _ (fun e => rfl)
      (stampInv_ensure id_self.ptr id_self.session_uuid hself h)

theorem fields_foldl_checked_fst (id_self : ID) (fields : List (Nat × RefField)) :
    ∀ (m : RelMap) (ok : Bool),
      (fields.foldl (fun acc p =>
          (main_relations_create_idlink_cb acc.1 id_self p.1 p.2,
           acc.2 && cb_asserts_ok acc.1 id_self p.1 p.2)) (m, ok)).1
        = fields.foldl
            (fun m p => main_relations_create_idlink_cb m id_self p.1 p.2) m := by
  induction fields with
  | nil => intro m ok; rfl
  | cons p rest ih => intro m ok; exact ih _ _

theorem relations_build_id_checked_fst (b : Bool) (acc : RelMap × Bool)
    (node : IDNode) :
    (relations_build_id_checked b acc node).1 = relations_build_id b acc.1 node :=
  fields_foldl_checked_fst node.id (walker_fields node b) _ _

theorem build_checked_foldl_fst (b : Bool) (ids : List IDNode) :
    ∀ acc : RelMap × Bool,
      (ids.foldl (relations_build_id_checked b) acc).1
        = ids.foldl (relations_build_id b) acc.1 := by
  induction ids with
  | nil => intro acc; rfl
  | cons n rest ih =>
    intro acc
    rw [List.foldl_cons, List.foldl_cons,
      ih (relations_build_id_checked b acc n), relations_build_id_checked_fst]

theorem fields_foldl_checked_invariant {u : Nat → Nat} (id_self : ID)
    (hself : IDConsistent u id_self) :
    ∀ (fields : List (Nat × RefField)),
      (∀ p ∈ fields, ∀ t, p.2.target = some t → IDConsistent u t) →
      ∀ (m : RelMap) (ok : Bool), StampInv u m → ok = true →
        StampInv u ((fields.foldl (fun acc p =>
            (main_relations_create_idlink_cb acc.1 id_self p.1 p.2,
             acc.2 && cb_asserts_ok acc.1 id_self p.1 p.2)) (m, ok)).1) ∧
        (fields.foldl (fun acc p =>
            (main_relations_create_idlink_cb acc.1 id_self p.1 p.2,
             acc.2 && cb_asserts_ok acc.1 id_self p.1 p.2)) (m, ok)).2 = true := by
  intro fields
  induction fields with
  | nil => intro _ m ok hm hok; exact ⟨hm, hok⟩
  | cons p rest ih =>
    intro hf m ok hm hok
    have hp := hf p (List.mem_cons_self _ _)
    have hm' : StampInv u (main_relations_create_idlink_cb m id_self p.1 p.2) :=
      stampInv_cb id_self p.1 p.2 hself hp hm
    have hok' : (ok && cb_asserts_ok m id_self p.1 p.2) = true := by
      rw [hok, cb_asserts_ok_of_stampInv id_self p.1 p.2 hself hp hm]
      rfl
    exact ih (fun q hq => hf q (List.mem_cons_of_mem _ hq)) _ _ hm' hok'

theorem relations_build_id_checked_invariant {u : Nat → Nat} (b : Bool)
    (node : IDNode) (hid : IDConsistent u node.id)
    (hfields : ∀ f ∈ node.fields, ∀ t, f.target = some t → IDConsistent u t)
    (acc : RelMap × Bool) (hm : StampInv u acc.1) (hok : acc.2 = true) :
    StampInv u (relations_build_id_checked b acc node).1 ∧
    (relations_build_id_checked b acc node).2 = true := by
  have hm0 : StampInv u (relmap_ensure acc.1 node.id.ptr node.id.session_uuid) :=
    stampInv_ensure node.id.ptr node.id.session_uuid hid hm
  have hok0 : (acc.2 &&
      relmap_ensure_assert acc.1 node.id.ptr node.id.session_uuid) = true := by
    rw [hok, ensure_assert_of_stampInv hm hid]
    rfl
  exact fields_foldl_checked_invariant node.id hid (walker_fields node b)
    (fun p hp t ht => hfields p.2 (walker_fields_mem hp) t ht) _ _ hm0 hok0

theorem relations_build_checked_invariant {u : Nat → Nat} (b : Bool) :
    ∀ (ids : List IDNode), RegistryConsistent u ids →
      ∀ acc : RelMap × Bool, StampInv u acc.1 → acc.2 = true →
        StampInv u (ids.foldl (relations_build_id_checked b) acc).1 ∧
        (ids.foldl (relations_build_id_checked b) acc).2 = true := by
  intro ids
  induction ids with
  | nil => intro _ acc hm hok; exact ⟨hm, hok⟩
  | cons n rest ih =>
    intro hcons acc hm hok
    have hn := hcons n (List.mem_cons_self _ _)
    have hstep := relations_build_id_checked_invariant b n hn.1 hn.2 acc hm hok
    rw [List.foldl_cons]
    exact ih (fun q hq => hcons q (List.mem_cons_of_mem _ hq)) _ hstep.1 hstep.2

/-- C7: in a session without identity reuse (uuids are a function `u` of the
identity), the build's map always equals the assert-tracking build's map, every
`BLI_assert` on a pre-existing entry passes — the stored stamp equals the
presenting ID's session identifier — the check never overwrites a stored
stamp (`relmap_ensure` returns existing entries untouched), and after the
build every entry's identity stamp equals its ID's session identifier. -/
theorem claim_C7_stamp_invariant (u : Nat → Nat) (ids : List IDNode) (flag : Nat)
    (hcons : RegistryConsistent u ids) :
    (relations_build_checked ids ((flag &&& MAINIDRELATIONS_INCLUDE_UI) != 0)).1
      = relations_build_map ids flag ∧
    (relations_build_checked ids ((flag &&& MAINIDRELATIONS_INCLUDE_UI) != 0)).2
      = true ∧
    (∀ k e, relmap_lookup (relations_build_map ids flag) k = some e →
      e.session_uuid = u k) ∧
    (∀ m k uuid e, relmap_lookup m k = some e →
      relmap_lookup (relmap_ensure m k uuid) k = some e) := by
  have hemp : StampInv u ([] : RelMap) := by intro p hp; cases hp
  have h1 : (relations_build_checked ids
        ((flag &&& MAINIDRELATIONS_INCLUDE_UI) != 0)).1
      = relations_build_map ids flag :=
    build_checked_foldl_fst _ ids ([], true)
  have h2 := relations_build_checked_invariant
    ((flag &&& MAINIDRELATIONS_INCLUDE_UI) != 0) ids hcons ([], true) hemp rfl
  refine ⟨h1, h2.2, ?_, fun m k uuid e h => lookup_ensure_of_some k uuid h⟩
  intro k e he
  have hstamp : StampInv u (relations_build_map ids flag) := by
    rw [← h1]; exact h2.1
  exact hstamp (k, e) (lookup_mem he)

/-- Witness for the stamp-invariant claim on the concrete one-ID registry. -/
theorem claim_C7_stamp_invariant_witness :
    (relations_build_checked exMainNullField.ids
        ((0 &&& MAINIDRELATIONS_INCLUDE_UI) != 0)).2 = true := by
  have hcons : RegistryConsistent (fun _ => 10) exMainNullField.ids := by
    intro node hn
    simp only [exMainNullField, List.mem_singleton] at hn
    subst hn
    refine ⟨rfl, ?_⟩
    intro f hf t ht
    simp only [List.mem_singleton] at hf
    subst hf
    simp at ht
  exact (claim_C7_stamp_invariant (fun _ => 10) exMainNullField.ids 0 hcons).2.1

/-- Witness for the tag frame claim at a concrete built index. -/
theorem claim_C10_tag_set_frame_witness :
    (BKE_main_relations_tag_set (Main.mk [] (some
        { relations_from_pointers :=
            [(1, { session_uuid := 10, to_ids := [], from_ids := [], tags := 2 })],
          flag := 0 })) 1 true).ids = ([] : List IDNode) :=
  (claim_C10_tag_set_frame []
    { relations_from_pointers :=
        [(1, { session_uuid := 10, to_ids := [], from_ids := [], tags := 2 })],
      flag := 0 } 1 true).1

/-- C8: the column query answers with the explicit absent result (`none`, not
an error) precisely when the requested attribute does not exist, when its
domain differs from the data source's display domain, or when its value type
is not one of the six displayable types. -/
theorem claim_C8_column_values_absent (ds : GeometryDataSource) (name : String) :
    get_column_values ds name = none ↔
      (attribute_try_get_for_read ds.component name = none ∨
       ∃ attr, attribute_try_get_for_read ds.component name = some attr ∧
         (attr.domain ≠ ds.domain ∨ isDisplayableType attr.dtype = false)) := by
  unfold get_column_values
  cases hl : attribute_try_get_for_read ds.component name with
  | none => simp
  | some attr =>
    by_cases hd : attr.domain ≠ ds.domain
    · simp [hd]
    · cases ht : attr.dtype <;> simp [hd, ht, isDisplayableType]

/-- Witness for the absence claim at a concrete empty component. -/
theorem claim_C8_column_values_absent_witness :
    get_column_values
        { component := { attributes := [] }, domain := .ATTR_DOMAIN_POINT } "x"
      = none ↔
      (attribute_try_get_for_read { attributes := [] } "x" = none ∨
       ∃ attr, attribute_try_get_for_read { attributes := [] } "x" = some attr ∧
         (attr.domain ≠ AttributeDomain.ATTR_DOMAIN_POINT ∨
          isDisplayableType attr.dtype = false)) :=
  claim_C8_column_values_absent
    { component := { attributes := [] }, domain := .ATTR_DOMAIN_POINT } "x"

/-- Witness for the amended tag set/clear claim at a concrete built index. -/
theorem claim_C4_tag_set_clear_witness :
    BKE_main_relations_tag_set (BKE_main_relations_tag_set
        (Main.mk [] (some
          { relations_from_pointers :=
              [(1, { session_uuid := 10, to_ids := [], from_ids := [], tags := 1 })],
            flag := 0 })) 1 true) 1 false
      = Main.mk [] (some
          { relations_from_pointers :=
              (([(1, { session_uuid := 10, to_ids := [], from_ids := [],
                       tags := 1 })] : RelMap)).map (fun p =>
                (p.1, { p.2 with tags := p.2.tags ^^^ (p.2.tags &&& 1) })),
            flag := 0 }) :=
  (claim_C4_tag_set_clear []
    { relations_from_pointers :=
        [(1, { session_uuid := 10, to_ids := [], from_ids := [], tags := 1 })],
      flag := 0 } 1).1

end BlenderMain
